import Mathlib

/-!
Shallow embedding of the tinywasm runtime core (crates/tinywasm and
crates/parser) used to check the specification's claims about the
interpreter dispatch (`exec_one`), instantiation and the start function,
the module reader's section handling, the global-instance setter and the
snapshot serializer.

Rust `Vec` stacks are modelled as Lean lists with the head as the top of
the stack.  Rust panics (`todo!`, `panic!`, slice-index and `expect`
failures) are modelled as the distinguished error `Err.panicked` of the
result monad; `Result::Err` values keep their own constructors.  Machine
integers are modelled as `Int`/`Nat` with explicit reduction modulo
`2 ^ 32` / `2 ^ 64` where the Rust code reinterprets raw cells.
-/

/-- Wasm value types (`tinywasm_types::ValType`). -/
inductive ValType
  | i32
  | i64
  | f32
  | f64
  | funcRef
  | externRef
deriving DecidableEq, Repr

/-- A raw 64-bit value-stack cell (`RawWasmValue`): an opaque 64-bit cell,
kept as a natural number below `2 ^ 64`. -/
abbrev RawVal := Nat

/-- Store a signed 32-bit integer into the low 32 bits of a raw cell. -/
def i32ToRaw (x : Int) : RawVal := (x % (2 : Int) ^ 32).toNat

/-- Reinterpret the low 32 bits of a raw cell as a signed 32-bit integer
(`let val : i32 = raw.into()`). -/
def rawToI32 (r : RawVal) : Int :=
  let m : Nat := r % 2 ^ 32
  if m < 2 ^ 31 then (m : Int) else (m : Int) - 2 ^ 32

/-- Store a signed 64-bit integer into a raw cell. -/
def i64ToRaw (x : Int) : RawVal := (x % (2 : Int) ^ 64).toNat

/-- Reinterpret a raw cell as a signed 64-bit integer. -/
def rawToI64 (r : RawVal) : Int :=
  let m : Nat := r % 2 ^ 64
  if m < 2 ^ 63 then (m : Int) else (m : Int) - 2 ^ 64

/-- A typed Wasm value (`tinywasm_types::WasmValue`).  Floats carry their
raw bit patterns; no float arithmetic is needed for the claims. -/
inductive WasmValue
  | i32 (x : Int)
  | i64 (x : Int)
  | f32 (bits : Nat)
  | f64 (bits : Nat)
  | funcRef (addr : Nat)
  | externRef (addr : Nat)
deriving DecidableEq, Repr

/-- The value type of a typed value (`WasmValue::val_type`). -/
def WasmValue.valType : WasmValue → ValType
  | .i32 _ => .i32
  | .i64 _ => .i64
  | .f32 _ => .f32
  | .f64 _ => .f64
  | .funcRef _ => .funcRef
  | .externRef _ => .externRef

/-- Lower a typed value into a raw stack cell (`RawWasmValue::from`). -/
def WasmValue.toRaw : WasmValue → RawVal
  | .i32 x => i32ToRaw x
  | .i64 x => i64ToRaw x
  | .f32 b => b % 2 ^ 32
  | .f64 b => b % 2 ^ 64
  | .funcRef a => a
  | .externRef a => a

/-- Attach a static type to a raw cell (`RawWasmValue::attach_type`). -/
def RawVal.attachType (r : RawVal) (t : ValType) : WasmValue :=
  match t with
  | .i32 => .i32 (rawToI32 r)
  | .i64 => .i64 (rawToI64 r)
  | .f32 => .f32 (r % 2 ^ 32)
  | .f64 => .f64 (r % 2 ^ 64)
  | .funcRef => .funcRef r
  | .externRef => .externRef r

/-- A function type (`tinywasm_types::FuncType`). -/
structure FuncType where
  params : List ValType
  results : List ValType
deriving DecidableEq, Repr

/-- Trap kinds (`tinywasm::Trap`); only the kinds the claims exercise. -/
inductive Trap
  | unreachable
  | outOfBoundsTableAccess
  | outOfBoundsMemoryAccess
deriving DecidableEq, Repr

/-- Runtime error kinds (`tinywasm::Error`).  `panicked` models a Rust
panic (`todo!`, `panic!`, out-of-bounds indexing, `expect`), which in the
Rust code aborts instead of returning an `Err` value. -/
inductive Err
  | trap (t : Trap)
  | stackUnderflow
  | funcDidNotReturn
  | io (msg : String)
  | other (msg : String)
  | panicked
deriving DecidableEq, Repr

/-- Block argument annotation (`tinywasm_types::BlockArgs`). -/
inductive BlockArgs
  | empty
  | type (t : ValType)
  | funcType (idx : Nat)
deriving DecidableEq, Repr

/-- The block-frame kind (`BlockFrameInner`). -/
inductive BlockFrameInner
  | blockB
  | loopB
  | ifB
  | elseB
deriving DecidableEq, Repr

/-- A block frame (`tinywasm::runtime::BlockFrame`). -/
structure BlockFrame where
  instr_ptr : Nat
  end_instr_ptr : Nat
  stack_ptr : Nat
  args : BlockArgs
  block : BlockFrameInner
deriving DecidableEq, Repr

/-- The lowered instruction stream (`tinywasm_types::Instruction`),
restricted to the opcodes the claims exercise.  Opcodes outside the
subset would hit the executor's catch-all `todo!` arm. -/
inductive Instruction
  | nop
  | unreachable
  | drop
  | select
  | ret
  | call (funcIdx : Nat)
  | loopOp (args : BlockArgs) (endOffset : Nat)
  | block (args : BlockArgs) (endOffset : Nat)
  | brTable (defaultLabel : Nat) (len : Nat)
  | brLabel (label : Nat)
  | br (label : Nat)
  | brIf (label : Nat)
  | endFunc
  | endBlockFrame
  | localGet (idx : Nat)
  | localSet (idx : Nat)
  | localTee (idx : Nat)
  | i32Const (x : Int)
  | i64Const (x : Int)
deriving DecidableEq, Repr

/-- A call frame (`tinywasm::runtime::CallFrame`).  `block_frames` has the
most recently pushed frame at the head. -/
structure CallFrame where
  func_ptr : Nat
  instr_ptr : Nat
  locals : List RawVal
  block_frames : List BlockFrame
deriving DecidableEq, Repr

/-- The interpreter stack (`tinywasm::runtime::Stack`): value stack and
call stack, both with the top at the head. -/
structure Stack where
  values : List RawVal
  call_stack : List CallFrame
deriving DecidableEq, Repr

instance : Inhabited Stack := ⟨⟨[], []⟩⟩

/-- A Wasm function body (`tinywasm_types::WasmFunction`). -/
structure WasmFunction where
  instructions : List Instruction
  locals : List ValType
  ty : FuncType
deriving DecidableEq, Repr

/-- A store-resident function (`tinywasm::Function`): a Wasm body or a
host function identified by its signature (host callables themselves are
external to the core). -/
inductive Function
  | wasm (f : WasmFunction)
  | host (ty : FuncType)
deriving DecidableEq, Repr

/-- The function's type (`Function::ty`). -/
def Function.ty (f : Function) : FuncType :=
  match f with
  | .wasm w => w.ty
  | .host t => t

/-- The function's declared local types (`Function::locals`); host
functions have none. -/
def Function.localTypes (f : Function) : List ValType :=
  match f with
  | .wasm w => w.locals
  | .host _ => []

/-- The function's instruction stream; host functions have none. -/
def Function.instructions (f : Function) : List Instruction :=
  match f with
  | .wasm w => w.instructions
  | .host _ => []

/-- A function instance in the store (`store/function.rs`). -/
structure FunctionInstance where
  func : Function
deriving DecidableEq, Repr

/-- A global type (`tinywasm_types::GlobalType`). -/
structure GlobalType where
  ty : ValType
  mutable : Bool
deriving DecidableEq, Repr

/-- A global instance (`store/global.rs`): raw cell plus its type. -/
structure GlobalInstance where
  value : RawVal
  ty : GlobalType
deriving DecidableEq, Repr

/-- `GlobalInstance::set` (store/global.rs): reject a value of the wrong
type, then reject if the global is immutable, otherwise store the raw
cell.  The returned instance is the state of the global after the call
(the Rust method mutates `self`). -/
def GlobalInstance.set (g : GlobalInstance) (val : WasmValue) :
    Except Err Unit × GlobalInstance :=
  if val.valType ≠ g.ty.ty then
    (.error (.other "global type mismatch"), g)
  else if ¬ g.ty.mutable then
    (.error (.other "global is immutable"), g)
  else
    (.ok (), { g with value := val.toRaw })

/-- `GlobalInstance::get` (store/global.rs). -/
def GlobalInstance.get (g : GlobalInstance) : WasmValue :=
  g.value.attachType g.ty.ty

/-- Modelled from the spec: `ValueStack::pop_n` lives in
`runtime/stack.rs`, which is not part of the excerpted sources.  Pop the
top `n` cells, returning them in stack order (bottom first) together
with the remaining stack. -/
def popN (vs : List RawVal) (n : Nat) : Option (List RawVal × List RawVal) :=
  if n ≤ vs.length then some ((vs.take n).reverse, vs.drop n) else none

/-- Modelled from the spec: `ValueStack::trim` lives in
`runtime/stack.rs`, which is not in the excerpted sources.  Truncate the
value stack down to height `n` counted from the bottom. -/
def trimTo (vs : List RawVal) (n : Nat) : List RawVal :=
  if vs.length ≤ n then vs else vs.drop (vs.length - n)

/-- Modelled from the spec: `ValueStack::block_args` lives in
`runtime/stack.rs`, which is not in the excerpted sources.  For the
MVP-level blocks the claims exercise (`BlockArgs::Empty`) no label
parameters are transferred, so the stack is unchanged. -/
def blockArgsStack (_args : BlockArgs) (vs : List RawVal) :
    Except Err (List RawVal) :=
  .ok vs

/-- The result arity of a block signature (spec section 4.4); a
`FuncType` signature would be resolved against the module's types. -/
def BlockArgs.resultArity : BlockArgs → Nat
  | .empty => 0
  | .type _ => 1
  | .funcType _ => 0

/-- The parameter arity of a block signature (spec section 4.4). -/
def BlockArgs.paramArity : BlockArgs → Nat
  | .empty => 0
  | .type _ => 0
  | .funcType _ => 0

/-- Modelled from the spec: `CallFrame::break_to` lives in
`runtime/stack.rs`, which is not in the excerpted sources (spec section
4.4).  Pop down to the `L+1`-th block frame; move the top `result_arity`
(`param_arity` for loops) cells to the frame's entry height and
truncate; loops jump to their start, other blocks jump to their lowered
end pointer. -/
def CallFrame.break_to (cf : CallFrame) (label : Nat) (vs : List RawVal) :
    Except Err (CallFrame × List RawVal) :=
  match cf.block_frames[label]? with
  | none => .error (.other "no block frame to break to")
  | some frame =>
    let arity := match frame.block with
      | .loopB => frame.args.paramArity
      | _ => frame.args.resultArity
    let vs2 := vs.take arity ++ trimTo (vs.drop arity) frame.stack_ptr
    match frame.block with
    | .loopB =>
      .ok ({ cf with instr_ptr := frame.instr_ptr,
                     block_frames := cf.block_frames.drop label }, vs2)
    | _ =>
      .ok ({ cf with instr_ptr := frame.end_instr_ptr,
                     block_frames := cf.block_frames.drop (label + 1) }, vs2)

/-- The kind of an external (`tinywasm_types::ExternalKind`). -/
inductive ExternalKind
  | func
  | table
  | memory
  | global
deriving DecidableEq, Repr

/-- A module export (`tinywasm_types::Export`). -/
structure ModuleExport where
  name : String
  kind : ExternalKind
  index : Nat
deriving DecidableEq, Repr

/-- The outcome of one dispatched instruction (`executor::ExecResult`). -/
inductive ExecRes
  | okRes
  | retRes
  | callRes
  | trapRes (t : Trap)
deriving DecidableEq, Repr

/-- A constant initializer expression (spec section 4.3: const-only
mini-interpreter over `*.const`, `global.get` of imported immutable
globals, `ref.null`, `ref.func`). -/
inductive ConstInstr
  | i32Const (x : Int)
  | i64Const (x : Int)
  | f32Const (bits : Nat)
  | f64Const (bits : Nat)
  | globalGet (idx : Nat)
  | refNull
  | refFunc (idx : Nat)
deriving DecidableEq, Repr

/-- A module global declaration (`tinywasm_types::Global`). -/
structure Global where
  ty : GlobalType
  init : ConstInstr
deriving DecidableEq, Repr

/-- A table type (`tinywasm_types::TableType`). -/
structure TableType where
  elemType : ValType
  sizeMin : Nat
  sizeMax : Option Nat
deriving DecidableEq, Repr

/-- A memory type (`tinywasm_types::MemoryType`): page limits. -/
structure MemoryType where
  pageMin : Nat
  pageMax : Option Nat
deriving DecidableEq, Repr

/-- An element segment kind (spec section 3). -/
inductive ElemKind
  | passive
  | active (table : Nat) (offset : ConstInstr)
  | declared
deriving DecidableEq, Repr

/-- An element segment (`tinywasm_types::Element`). -/
structure Element where
  kind : ElemKind
  items : List (Option Nat)
deriving DecidableEq, Repr

/-- A data segment (`tinywasm_types::Data`): active segments carry a
destination memory and offset. -/
structure Data where
  active : Option (Nat × ConstInstr)
  bytes : List Nat
deriving DecidableEq, Repr

/-- The kind and type of a module import (`tinywasm_types::Import`). -/
inductive ImportKind
  | func (ty : FuncType)
  | table (ty : TableType)
  | memory (ty : MemoryType)
  | global (ty : GlobalType)
deriving DecidableEq, Repr

/-- A module import (`tinywasm_types::Import`). -/
structure Import where
  moduleName : String
  fieldName : String
  kind : ImportKind
deriving DecidableEq, Repr

/-- A loaded module (`tinywasm_types::TinyWasmModule`). -/
structure TinyWasmModule where
  funcs : List WasmFunction
  func_types : List FuncType
  globals : List Global
  table_types : List TableType
  imports : List Import
  start_func : Option Nat
  data : List Data
  exports : List ModuleExport
  elements : List Element
  memory_types : List MemoryType
deriving DecidableEq, Repr

/-- Modelled from the spec: `store/table.rs` is not in the excerpted
sources.  A table instance holds reference cells, `none` when null. -/
structure TableInstance where
  ty : TableType
  elements : List (Option Nat)
deriving DecidableEq, Repr

/-- A memory instance: byte buffer plus its type. -/
structure MemoryInstance where
  ty : MemoryType
  data : List Nat
deriving DecidableEq, Repr

/-- An element instance (`store/element.rs`): `items = none` if the
segment was dropped. -/
structure ElementInstance where
  kind : ElemKind
  items : Option (List (Option Nat))
deriving DecidableEq, Repr

/-- A data instance: `none` if dropped. -/
structure DataInstance where
  bytes : Option (List Nat)
deriving DecidableEq, Repr

/-- The store (`tinywasm::Store`): arenas for every instance kind. -/
structure Store where
  funcs : List FunctionInstance
  tables : List TableInstance
  memories : List MemoryInstance
  globals : List GlobalInstance
  elems : List ElementInstance
  datas : List DataInstance
deriving DecidableEq, Repr

/-- The empty store (`Store::default`). -/
def Store.empty : Store := ⟨[], [], [], [], [], []⟩

/-- `Store::get_func`: out-of-range addresses are a runtime error. -/
def Store.get_func (s : Store) (addr : Nat) : Except Err FunctionInstance :=
  match s.funcs[addr]? with
  | none => .error (.other "function not found")
  | some f => .ok f

/-- One dispatched instruction (`executor::exec_one`).  Returns the
outcome together with the updated current call frame and stack; the
store is never mutated by the modelled opcodes. -/
def execOne (cf : CallFrame) (instr : Instruction) (_instrs : List Instruction)
    (stack : Stack) (store : Store) (module : TinyWasmModule) :
    Except Err (ExecRes × CallFrame × Stack) :=
  match instr with
  | .nop => .ok (.okRes, cf, stack)
  | .unreachable => .ok (.trapRes .unreachable, cf, stack)
  | .drop =>
    match stack.values with
    | [] => .error .stackUnderflow
    | _ :: rest => .ok (.okRes, cf, { stack with values := rest })
  | .select =>
    -- pop the condition, pop val2; when the condition is zero, replace
    -- val1 (now on top) by val2, otherwise keep val1
    match stack.values with
    | [] => .error .stackUnderflow
    | [_] => .error .stackUnderflow
    | cond :: val2 :: rest =>
      if rawToI32 cond = 0 then
        match rest with
        | [] => .error .stackUnderflow
        | _val1 :: rest2 => .ok (.okRes, cf, { stack with values := val2 :: rest2 })
      else
        .ok (.okRes, cf, { stack with values := rest })
  | .ret => .ok (.okRes, cf, stack)  -- the Return arm only logs
  | .call v =>
    match store.funcs[v]? with
    | none => .error (.other "function not found")
    | some func =>
      match module.func_types[v]? with
      | none => .error .panicked  -- `func_ty` uses `expect`
      | some func_ty =>
        match popN stack.values func_ty.params.length with
        | none => .error .stackUnderflow
        | some (params, rest) =>
          let callFrame : CallFrame :=
            ⟨v, 0, params ++ List.replicate func.func.localTypes.length 0, []⟩
          let cf1 := { cf with instr_ptr := cf.instr_ptr + 1 }
          .ok (.callRes, callFrame,
               { stack with values := rest, call_stack := cf1 :: stack.call_stack })
  | .loopOp args endOffset =>
    let frame : BlockFrame :=
      ⟨cf.instr_ptr, cf.instr_ptr + endOffset, stack.values.length, args, .loopB⟩
    match blockArgsStack args stack.values with
    | .error e => .error e
    | .ok vs =>
      .ok (.okRes, { cf with block_frames := frame :: cf.block_frames },
           { stack with values := vs })
  | .block args endOffset =>
    let frame : BlockFrame :=
      ⟨cf.instr_ptr, cf.instr_ptr + endOffset, stack.values.length, args, .blockB⟩
    match blockArgsStack args stack.values with
    | .error e => .error e
    | .ok vs =>
      .ok (.okRes, { cf with block_frames := frame :: cf.block_frames },
           { stack with values := vs })
  | .brTable _defaultLabel _len =>
    -- the arm collects the inline BrLabel instructions and then hits
    -- `todo!()`; a malformed label vector panics inside the collection,
    -- so every path through this arm panics
    .error .panicked
  | .brLabel _ => .error .panicked  -- catch-all `todo!` arm
  | .br v =>
    match cf.break_to v stack.values with
    | .error e => .error e
    | .ok (cf2, vs) => .ok (.okRes, cf2, { stack with values := vs })
  | .brIf v =>
    match stack.values with
    | [] => .error .stackUnderflow
    | val :: rest =>
      -- the executor branches only when the popped i32 is strictly
      -- positive (`if val > 0`)
      if rawToI32 val > 0 then
        match cf.break_to v rest with
        | .error e => .error e
        | .ok (cf2, vs) => .ok (.okRes, cf2, { stack with values := vs })
      else
        .ok (.okRes, cf, { stack with values := rest })
  | .endFunc =>
    if cf.block_frames.length > 0 then
      .error .panicked  -- `panic!("endfunc: block frames not empty…")`
    else
      match stack.call_stack with
      | [] => .ok (.retRes, cf, stack)
      | parent :: rest => .ok (.callRes, parent, { stack with call_stack := rest })
  | .endBlockFrame =>
    match cf.block_frames with
    | [] => .error .panicked  -- `panic!("end: no block to end…")`
    | blockFrame :: blocks =>
      -- `res` is computed first: only `BlockArgs::Empty` is implemented,
      -- the typed variants hit `todo!()`
      match blockFrame.args with
      | .empty =>
        match blockFrame.block with
        | .loopB =>
          .ok (.okRes,
               { cf with instr_ptr := blockFrame.instr_ptr,
                         block_frames := blockFrame :: blocks },
               { stack with values := trimTo stack.values blockFrame.stack_ptr })
        | .blockB =>
          .ok (.okRes, { cf with block_frames := blocks },
               { stack with values := trimTo stack.values blockFrame.stack_ptr })
        | _ => .error .panicked  -- `panic!("end: unimplemented block type…")`
      | _ => .error .panicked  -- `BlockArgs::Type`/`FuncType` → `todo!()`
  | .localGet idx =>
    match cf.locals[idx]? with
    | none => .error .panicked  -- out-of-range local index
    | some v => .ok (.okRes, cf, { stack with values := v :: stack.values })
  | .localSet idx =>
    match stack.values with
    | [] => .error .stackUnderflow
    | v :: rest =>
      if idx < cf.locals.length then
        .ok (.okRes, { cf with locals := cf.locals.set idx v },
             { stack with values := rest })
      else .error .panicked
  | .localTee idx =>
    match stack.values with
    | [] => .error .stackUnderflow
    | v :: _ =>
      if idx < cf.locals.length then
        .ok (.okRes, { cf with locals := cf.locals.set idx v }, stack)
      else .error .panicked
  | .i32Const x => .ok (.okRes, cf, { stack with values := i32ToRaw x :: stack.values })
  | .i64Const x => .ok (.okRes, cf, { stack with values := i64ToRaw x :: stack.values })

/-- Modelled from the spec: the cycle-budget variant of the interpreter
loop (`runtime/interpreter`) is not in the excerpted sources (spec
section 4.5).  The dispatch loop of `executor::exec` driven for at most
`fuel` instruction dispatches, yielding `false` (Incomplete) with the
live frame pushed back when the budget is exhausted.  Each step fetches
the instruction at `cf.instr_ptr`, runs `execOne`, and advances exactly
as `executor::exec` does; running off the end of the body is the
`FuncDidNotReturn` error, a trap pushes the frame back and surfaces the
trap. -/
def runExec (store : Store) (module : TinyWasmModule) :
    Nat → CallFrame → Stack → Except Err (Bool × Stack)
  | 0, cf, stack => .ok (false, { stack with call_stack := cf :: stack.call_stack })
  | fuel + 1, cf, stack =>
    match store.funcs[cf.func_ptr]? with
    | none => .error (.other "function not found")
    | some func =>
      let instrs := Function.instructions func.func
      match instrs[cf.instr_ptr]? with
      | none => .error .funcDidNotReturn
      | some instr =>
        match execOne cf instr instrs stack store module with
        | .error e => .error e
        | .ok (.okRes, cf2, stack2) =>
          runExec store module fuel { cf2 with instr_ptr := cf2.instr_ptr + 1 } stack2
        | .ok (.callRes, cf2, stack2) => runExec store module fuel cf2 stack2
        | .ok (.retRes, _cf2, stack2) => .ok (true, stack2)
        | .ok (.trapRes t, _cf2, _stack2) =>
          -- the frame is pushed back onto the call stack for resumption
          -- and the trap surfaces as the error of the run
          .error (.trap t)

/-- An extern value handed to the linker (`tinywasm::Extern`); host
function callables are identified by their signature. -/
inductive ProvidedItem
  | func (ty : FuncType)
  | table (ty : TableType) (elements : List (Option Nat))
  | memory (ty : MemoryType)
  | global (ty : GlobalType) (value : RawVal)
deriving DecidableEq, Repr

/-- The import map (`tinywasm::Imports`): entries keyed by module and
field name. -/
structure Imports where
  entries : List (String × String × ProvidedItem)
deriving DecidableEq, Repr

/-- The empty import map (`Imports::new`). -/
def Imports.new : Imports := ⟨[]⟩

/-- Addresses recorded while linking (`imports::link` result). -/
structure LinkedAddrs where
  funcs : List Nat
  tables : List Nat
  memories : List Nat
  globals : List Nat
deriving DecidableEq, Repr

/-- Modelled from the spec: `imports.rs` is not in the excerpted sources
(spec section 4.3 step 1).  Satisfy one declared import: locate a
provider by module and field name, require the matching kind,
structurally identical function and global types, and table/memory
minimums at least the declared ones; the matched instance is appended to
the store and its address recorded. -/
def linkOne (imports : Imports) (acc : LinkedAddrs × Store) (imp : Import) :
    Except Err (LinkedAddrs × Store) :=
  let (addrs, store) := acc
  match imports.entries.find? (fun e => e.1 = imp.moduleName ∧ e.2.1 = imp.fieldName) with
  | none => .error (.other "unknown import")
  | some (_, _, item) =>
    match imp.kind, item with
    | .func ty, .func pty =>
      if pty = ty then
        .ok ({ addrs with funcs := addrs.funcs ++ [store.funcs.length] },
             { store with funcs := store.funcs ++ [⟨.host pty⟩] })
      else .error (.other "incompatible import type")
    | .table ty, .table pty elems =>
      if pty.elemType = ty.elemType ∧ ty.sizeMin ≤ pty.sizeMin then
        .ok ({ addrs with tables := addrs.tables ++ [store.tables.length] },
             { store with tables := store.tables ++ [⟨pty, elems⟩] })
      else .error (.other "incompatible import type")
    | .memory ty, .memory pty =>
      if ty.pageMin ≤ pty.pageMin then
        .ok ({ addrs with memories := addrs.memories ++ [store.memories.length] },
             { store with memories :=
                 store.memories ++ [⟨pty, List.replicate (pty.pageMin * 65536) 0⟩] })
      else .error (.other "incompatible import type")
    | .global ty, .global pty value =>
      if pty = ty then
        .ok ({ addrs with globals := addrs.globals ++ [store.globals.length] },
             { store with globals := store.globals ++ [⟨value, pty⟩] })
      else .error (.other "incompatible import type")
    | _, _ => .error (.other "incompatible import type")

/-- Modelled from the spec: `Imports::link` (imports.rs, not in the
excerpted sources; spec section 4.3 step 1) satisfies every
declared import in order. -/
def Imports.link (imports : Imports) (store : Store) (m : TinyWasmModule) :
    Except Err (LinkedAddrs × Store) :=
  m.imports.foldlM (linkOne imports) (⟨[], [], [], []⟩, store)

/-- Modelled from the spec: the arena helpers of the store are not in
the excerpted sources (spec section 4.3 step 2).  `Store::init_funcs`
appends the module-defined function bodies and records their store
addresses. -/
def Store.init_funcs (s : Store) (fs : List WasmFunction) : List Nat × Store :=
  ((List.range fs.length).map (· + s.funcs.length),
   { s with funcs := s.funcs ++ fs.map (fun f => ⟨.wasm f⟩) })

/-- Modelled from the spec (section 4.3 step 2): `Store::init_tables`
appends empty tables of the declared types. -/
def Store.init_tables (s : Store) (ts : List TableType) : List Nat × Store :=
  ((List.range ts.length).map (· + s.tables.length),
   { s with tables := s.tables ++ ts.map (fun t => ⟨t, List.replicate t.sizeMin none⟩) })

/-- Modelled from the spec (section 4.3 step 2): `Store::init_memories`
appends zeroed memories of the declared page minimums. -/
def Store.init_memories (s : Store) (ms : List MemoryType) : List Nat × Store :=
  ((List.range ms.length).map (· + s.memories.length),
   { s with memories :=
       s.memories ++ ms.map (fun t => ⟨t, List.replicate (t.pageMin * 65536) 0⟩) })

/-- Modelled from the spec (section 4.3 step 3): the constant-expression
mini-interpreter is not in the excerpted sources.  Const-only forms plus
`global.get` of imported immutable globals and `ref.func` through the
function address map. -/
def evalConst (s : Store) (importedGlobalAddrs : List Nat) (funcAddrs : List Nat) :
    ConstInstr → Except Err RawVal
  | .i32Const x => .ok (i32ToRaw x)
  | .i64Const x => .ok (i64ToRaw x)
  | .f32Const b => .ok (b % 2 ^ 32)
  | .f64Const b => .ok (b % 2 ^ 64)
  | .refNull => .ok 0
  | .refFunc i =>
    match funcAddrs[i]? with
    | none => .error (.other "unknown function reference")
    | some a => .ok a
  | .globalGet i =>
    match importedGlobalAddrs[i]? with
    | none => .error (.other "unknown global reference")
    | some a =>
      match s.globals[a]? with
      | none => .error (.other "global not found")
      | some g => if g.ty.mutable then .error (.other "mutable global in const expr")
                  else .ok g.value

/-- Modelled from the spec (section 4.3 step 3): `Store::init_globals`
evaluates each declared global's initializer and appends the instance;
returns the imported addresses followed by the new ones. -/
def Store.init_globals (s : Store) (importedAddrs : List Nat) (gs : List Global)
    (funcAddrs : List Nat) : Except Err (List Nat × Store) :=
  match gs with
  | [] => .ok (importedAddrs, s)
  | g :: rest =>
    match evalConst s importedAddrs funcAddrs g.init with
    | .error e => .error e
    | .ok v =>
      Store.init_globals { s with globals := s.globals ++ [⟨v, g.ty⟩] }
        (importedAddrs ++ [s.globals.length]) rest funcAddrs

/-- Modelled from the spec (section 4.3 step 4): write the items of an
active element segment into a table, bounds-checked. -/
def writeTable (t : TableInstance) (offset : Nat) (items : List (Option Nat)) :
    Option TableInstance :=
  if offset + items.length ≤ t.elements.length then
    some { t with elements :=
             t.elements.take offset ++ items
               ++ t.elements.drop (offset + items.length) }
  else none

/-- Modelled from the spec (section 4.3 step 4): `Store::init_elements`
processes segments in order; an out-of-range active segment stops
initialization with a trap, leaving earlier segments committed. -/
def Store.init_elements (s : Store) (tableAddrs : List Nat) (funcAddrs : List Nat)
    (globalAddrs : List Nat) : List Element → Except Err (List Nat × Store × Option Unit)
  | [] => .ok ([], s, none)
  | e :: rest =>
    match e.kind with
    | .active tbl offset =>
      match evalConst s globalAddrs funcAddrs offset with
      | .error err => .error err
      | .ok off =>
      match tableAddrs[tbl]? with
      | none => .error (.other "table not found")
      | some ta =>
        match s.tables[ta]? with
        | none => .error (.other "table not found")
        | some t =>
          match writeTable t off e.items with
          | none => .ok ([s.elems.length], { s with elems := s.elems ++ [⟨e.kind, none⟩] }, some ())
          | some t2 =>
            let s2 := { s with tables := s.tables.set ta t2,
                               elems := s.elems ++ [⟨e.kind, none⟩] }
            match Store.init_elements s2 tableAddrs funcAddrs globalAddrs rest with
            | .error err => .error err
            | .ok (addrs, s3, trapped) => .ok (s.elems.length :: addrs, s3, trapped)
    | _ =>
      let s2 := { s with elems := s.elems ++ [⟨e.kind, some e.items⟩] }
      match Store.init_elements s2 tableAddrs funcAddrs globalAddrs rest with
      | .error err => .error err
      | .ok (addrs, s3, trapped) => .ok (s.elems.length :: addrs, s3, trapped)

/-- Modelled from the spec (section 4.3 step 5): write the bytes of an
active data segment into a memory, bounds-checked. -/
def writeMemory (mem : MemoryInstance) (offset : Nat) (bytes : List Nat) :
    Option MemoryInstance :=
  if offset + bytes.length ≤ mem.data.length then
    some { mem with data :=
             mem.data.take offset ++ bytes ++ mem.data.drop (offset + bytes.length) }
  else none

/-- Modelled from the spec (section 4.3 step 5): `Store::init_datas` is
analogous to elements, over memories. -/
def Store.init_datas (s : Store) (memAddrs : List Nat) (globalAddrs : List Nat)
    (funcAddrs : List Nat) : List Data → Except Err (List Nat × Store × Option Unit)
  | [] => .ok ([], s, none)
  | d :: rest =>
    match d.active with
    | some (mi, offset) =>
      match evalConst s globalAddrs funcAddrs offset with
      | .error err => .error err
      | .ok off =>
      match memAddrs[mi]? with
      | none => .error (.other "memory not found")
      | some ma =>
        match s.memories[ma]? with
        | none => .error (.other "memory not found")
        | some mem =>
          match writeMemory mem off d.bytes with
          | none => .ok ([s.datas.length], { s with datas := s.datas ++ [⟨none⟩] }, some ())
          | some mem2 =>
            let s2 := { s with memories := s.memories.set ma mem2,
                               datas := s.datas ++ [⟨none⟩] }
            match Store.init_datas s2 memAddrs globalAddrs funcAddrs rest with
            | .error err => .error err
            | .ok (addrs, s3, trapped) => .ok (s.datas.length :: addrs, s3, trapped)
    | none =>
      let s2 := { s with datas := s.datas ++ [⟨some d.bytes⟩] }
      match Store.init_datas s2 memAddrs globalAddrs funcAddrs rest with
      | .error err => .error err
      | .ok (addrs, s3, trapped) => .ok (s.datas.length :: addrs, s3, trapped)

/-- An extern value resolved from an export (`tinywasm_types::ExternVal`). -/
inductive ExternVal
  | func (addr : Nat)
  | table (addr : Nat)
  | memory (addr : Nat)
  | global (addr : Nat)
deriving DecidableEq, Repr

/-- An instantiated module (`instance.rs`): the per-module address maps
into its store. -/
structure Instance where
  module : TinyWasmModule
  store : Store
  func_addrs : List Nat
  table_addrs : List Nat
  mem_addrs : List Nat
  global_addrs : List Nat
  elem_addrs : List Nat
  data_addrs : List Nat
deriving DecidableEq, Repr

/-- `Instance::instantiate` (instance.rs): link the imports into a fresh
store, append module-defined funcs, tables and memories, evaluate the
globals, then initialize element and data segments, returning a trap as
the instantiation error when a segment is out of range.  The start
function is not invoked here. -/
def Instance.instantiate (m : TinyWasmModule) (imports : Imports) :
    Except Err Instance :=
  match imports.link Store.empty m with
  | .error e => .error e
  | .ok (addrs, store1) =>
    match store1.init_funcs m.funcs with
    | (newFuncAddrs, store2) =>
      match store2.init_tables m.table_types with
      | (newTableAddrs, store3) =>
        match store3.init_memories m.memory_types with
        | (newMemAddrs, store4) =>
          match store4.init_globals addrs.globals m.globals (addrs.funcs ++ newFuncAddrs) with
          | .error e => .error e
          | .ok (globalAddrs, store5) =>
            match store5.init_elements (addrs.tables ++ newTableAddrs)
                (addrs.funcs ++ newFuncAddrs) globalAddrs m.elements with
            | .error e => .error e
            | .ok (elemAddrs, store6, elemTrapped) =>
              if elemTrapped.isSome then .error (.trap .outOfBoundsTableAccess)
              else
                match store6.init_datas (addrs.memories ++ newMemAddrs) globalAddrs
                    (addrs.funcs ++ newFuncAddrs) m.data with
                | .error e => .error e
                | .ok (dataAddrs, store7, dataTrapped) =>
                  if dataTrapped.isSome then .error (.trap .outOfBoundsMemoryAccess)
                  else
                    .ok ⟨m, store7, addrs.funcs ++ newFuncAddrs,
                         addrs.tables ++ newTableAddrs, addrs.memories ++ newMemAddrs,
                         globalAddrs, elemAddrs, dataAddrs⟩

/-- `Instance::export_addr` (instance.rs): find the first export with the
given name and translate its module-local index through the matching
address map; a missing entry yields `none`. -/
def Instance.export_addr (inst : Instance) (name : String) : Option ExternVal :=
  match inst.module.exports.find? (fun e => e.name = name) with
  | none => none
  | some e =>
    match e.kind with
    | .func => (inst.func_addrs[e.index]?).map .func
    | .table => (inst.table_addrs[e.index]?).map .table
    | .memory => (inst.mem_addrs[e.index]?).map .memory
    | .global => (inst.global_addrs[e.index]?).map .global

/-- A function handle (`instance.rs`): store address, type and optional
export name. -/
structure FuncHandle where
  addr : Nat
  ty : FuncType
  name : Option String
deriving DecidableEq, Repr

/-- The result of a bounded call (`tinywasm::CallResult`). -/
inductive CallResult
  | done (values : List WasmValue)
  | incomplete
deriving DecidableEq, Repr

/-- Modelled from the spec: the invocation path of this `FuncHandle` is
not in the excerpted sources (spec sections 4.4 and 4.5).  Check the
argument count and types, build the initial call frame (parameters
copied, declared locals zeroed), run the bounded dispatch loop, and
return `Done` with the typed results or `Incomplete` when the cycle
budget runs out; traps surface as errors. -/
def Instance.callFunc (inst : Instance) (f : FuncHandle) (params : List WasmValue)
    (maxCycles : Nat) : Except Err CallResult := do
  if f.ty.params.length ≠ params.length then
    .error (.other "param count mismatch")
  else if ¬ (f.ty.params.zip params).all (fun (t, p) => t = p.valType) then
    .error (.other "type mismatch")
  else do
    let funcInst ← inst.store.get_func f.addr
    let frame : CallFrame :=
      ⟨f.addr, 0,
       params.map WasmValue.toRaw
         ++ List.replicate (Function.localTypes funcInst.func).length 0, []⟩
    let (finished, stack) ← runExec inst.store inst.module maxCycles frame ⟨[], []⟩
    if ¬ finished then
      .ok .incomplete
    else
      let resultM := f.ty.results.length
      if stack.values.length < resultM then
        .error .panicked  -- the `assert!` on the result count
      else
        let res := (stack.values.take resultM).reverse
        .ok (.done ((res.zip f.ty.results).map (fun (v, t) => v.attachType t)))

/-- `Instance::start_func` (instance.rs): prefer the declared start
index; otherwise fall back to an exported function named `_start` (whose
export address is itself an already-resolved store address); the chosen
index is then resolved through `func_addrs` again, with a panicking
`expect` when it is out of range. -/
def Instance.start_func (inst : Instance) : Except Err (Option FuncHandle) :=
  let funcIndex : Option Nat :=
    match inst.module.start_func with
    | some i => some i
    | none =>
      match inst.export_addr "_start" with
      | some (.func addr) => some addr
      | _ => none
  match funcIndex with
  | none => .ok none
  | some idx =>
    match inst.func_addrs[idx]? with
    | none => .error .panicked  -- `expect("No func addr for start func…")`
    | some funcAddr =>
      match inst.store.get_func funcAddr with
      | .error e => .error e
      | .ok funcInst => .ok (some ⟨funcAddr, Function.ty funcInst.func, none⟩)

/-- `Instance::start` (instance.rs): invoke the start function when there
is one; its result value is discarded, its errors (including traps)
propagate. -/
def Instance.start (inst : Instance) (maxCycles : Nat) : Except Err (Option Unit) := do
  match ← inst.start_func with
  | none => .ok none
  | some f => do
    let _ ← inst.callFunc f [] maxCycles
    .ok (some ())

/-- `Instance::instantiate_start` (instance.rs): instantiate, then run
the start function. -/
def Instance.instantiate_start (m : TinyWasmModule) (imports : Imports)
    (maxCycles : Nat) : Except Err Instance := do
  let inst ← Instance.instantiate m imports
  let _ ← inst.start maxCycles
  .ok inst

/-- The instance view used by the snapshot codec (`exec.rs`): the handle
reaches the memories and globals of its instance directly. -/
structure ExecInstance where
  memories : List MemoryInstance
  globals : List GlobalInstance
deriving DecidableEq, Repr

/-- The function handle held by an `ExecHandle` (`exec.rs`). -/
structure ExecFuncHandle where
  instance_ : ExecInstance
  ty : FuncType
deriving DecidableEq, Repr

/-- A suspended execution (`exec.rs::ExecHandle`): handle plus the live
interpreter stack. -/
structure ExecHandle where
  func_handle : ExecFuncHandle
  stack : Stack
deriving DecidableEq, Repr

/-- The archived snapshot state (`exec.rs::SerializationState`): exactly
the interpreter stack, the first memory's byte buffer and the globals'
raw cells — there is no magic or version field. -/
structure SerializationState where
  stack : Stack
  memory : List Nat
  globals : List RawVal
deriving DecidableEq, Repr

/-- `ExecHandle::serialize` (exec.rs).  The rkyv archive encoder is an
external library and is passed as the parameter `enc`; the method moves
the stack and the first memory's buffer into a `SerializationState`
(leaving them empty in the handle), hands that state to the encoder
unchanged — nothing is prepended to the encoder's bytes — and restores
the moved-out fields only after a successful encode (the `?` on the
encode returns early, before the restore).  Returns the result and the
handle state after the call. -/
def ExecHandle.serialize (enc : SerializationState → Except String (List Nat))
    (h : ExecHandle) : Except Err (List Nat) × ExecHandle :=
  match h.func_handle.instance_.memories with
  | [] => (.error .panicked, h)  -- `memories[0]` on an empty vector
  | mem :: restMems =>
    let data : SerializationState :=
      ⟨h.stack, mem.data, h.func_handle.instance_.globals.map (·.value)⟩
    let taken : ExecHandle :=
      { h with stack := ⟨[], []⟩,
               func_handle :=
                 { h.func_handle with
                   instance_ :=
                     { h.func_handle.instance_ with
                       memories := { mem with data := [] } :: restMems } } }
    match enc data with
    | .error e => (.error (.io e), taken)
    | .ok bytes =>
      (.ok bytes,
       { taken with stack := data.stack,
                    func_handle :=
                      { taken.func_handle with
                        instance_ :=
                          { taken.func_handle.instance_ with
                            memories := { mem with data := data.memory } :: restMems } } })

/-- Modelled from the spec: the `tinywasm_parser::ParseError` enum is
declared in the parser's error module, which is not in the excerpted
sources; its constructors are reconstructed from their uses in module.rs
and lib.rs and the spec's error list.  `parse` is the conversion of a
`wasmparser` error. -/
inductive PError
  | parse (msg : String)
  | invalidEncoding
  | duplicateSection (name : String)
  | unsupportedSection (name : String)
  | endNotReached
  | panicked
  | otherErr (msg : String)
deriving DecidableEq, Repr

/-- A code-section entry (`module.rs::Code`). -/
structure Code where
  instructions : List Instruction
  locals : List ValType
deriving DecidableEq, Repr

/-- A `wasmparser` payload, carrying already-decoded section contents
(the `conversion` helpers of the parser crate are treated as the
identity on these decoded values). -/
inductive Payload
  | version (num : Nat) (isComponent : Bool)
  | startSection (func : Nat)
  | typeSection (types : List FuncType)
  | globalSection (globals : List Global)
  | tableSection (tables : List TableType)
  | memorySection (memories : List MemoryType)
  | elementSection (elements : List Element)
  | dataSection (segments : List Data)
  | dataCountSection (count : Nat)
  | functionSection (typeAddrs : List Nat)
  | codeSectionStart (count : Nat)
  | codeSectionEntry (code : Code)
  | importsSection (entries : List Import)
  | exportSection (entries : List ModuleExport)
  | endPayload
  | customSection
  | unknownSection
deriving DecidableEq, Repr

/-- Whether a payload is the `End` payload. -/
def Payload.isEnd : Payload → Bool
  | .endPayload => true
  | _ => false

/-- Modelled from the spec (section 4.2): the wrapped `wasmparser`
validator is external to this repository and is treated as a parameter
of the reader.  Each `validator.…(…)?` call either accepts the payload
or fails, and its failures surface as `PError.parse` — never as the
reader's own `DuplicateSection`. -/
def Validator := Payload → Bool

/-- The validator that accepts every payload. -/
def acceptAll : Validator := fun _ => true

/-- The section accumulator (`module.rs::ModuleReader`). -/
structure ModuleReader where
  version : Option Nat
  start_func : Option Nat
  func_types : List FuncType
  code_type_addrs : List Nat
  exports : List ModuleExport
  code : List Code
  globals : List Global
  table_types : List TableType
  memory_types : List MemoryType
  imports : List Import
  data : List Data
  elements : List Element
  end_reached : Bool
deriving DecidableEq, Repr

/-- `ModuleReader::new` / `ModuleReader::default`. -/
def ModuleReader.new : ModuleReader :=
  ⟨none, none, [], [], [], [], [], [], [], [], [], [], false⟩

/-- `ModuleReader::process_payload` (module.rs): one payload.  Duplicate
sections are detected by emptiness checks on the accumulated fields
*before* the validator runs; the Element arm has no duplicate check at
all, and the DataCount arm checks the Data section's accumulator. -/
def processPayload (v : Validator) (r : ModuleReader) (p : Payload) :
    Except PError ModuleReader :=
  match p with
  | .version num isComponent =>
    if ¬ v p then .error (.parse "validator rejected version")
    else if isComponent then .error .invalidEncoding
    else .ok { r with version := some num }
  | .startSection func =>
    if r.start_func.isSome then .error (.duplicateSection "Start section")
    else if ¬ v p then .error (.parse "validator rejected start section")
    else .ok { r with start_func := some func }
  | .typeSection types =>
    if r.func_types ≠ [] then .error (.duplicateSection "Type section")
    else if ¬ v p then .error (.parse "validator rejected type section")
    else .ok { r with func_types := types }
  | .globalSection globals =>
    if r.globals ≠ [] then .error (.duplicateSection "Global section")
    else if ¬ v p then .error (.parse "validator rejected global section")
    else .ok { r with globals := globals }
  | .tableSection tables =>
    if r.table_types ≠ [] then .error (.duplicateSection "Table section")
    else if ¬ v p then .error (.parse "validator rejected table section")
    else .ok { r with table_types := tables }
  | .memorySection memories =>
    if r.memory_types ≠ [] then .error (.duplicateSection "Memory section")
    else if ¬ v p then .error (.parse "validator rejected memory section")
    else .ok { r with memory_types := memories }
  | .elementSection elements =>
    -- no duplicate check: the reader overwrites any previous contents
    if ¬ v p then .error (.parse "validator rejected element section")
    else .ok { r with elements := elements }
  | .dataSection segments =>
    if r.data ≠ [] then .error (.duplicateSection "Data section")
    else if ¬ v p then .error (.parse "validator rejected data section")
    else .ok { r with data := segments }
  | .dataCountSection _count =>
    -- the duplicate check inspects the *Data section* accumulator
    if r.data ≠ [] then .error (.duplicateSection "Data count section")
    else if ¬ v p then .error (.parse "validator rejected data count section")
    else .ok r
  | .functionSection typeAddrs =>
    if r.code_type_addrs ≠ [] then .error (.duplicateSection "Function section")
    else if ¬ v p then .error (.parse "validator rejected function section")
    else .ok { r with code_type_addrs := typeAddrs }
  | .codeSectionStart _count =>
    if r.code ≠ [] then .error (.duplicateSection "Code section")
    else if ¬ v p then .error (.parse "validator rejected code section")
    else .ok r  -- only reserves capacity
  | .codeSectionEntry code =>
    if ¬ v p then .error (.parse "validator rejected code entry")
    else .ok { r with code := r.code ++ [code] }
  | .importsSection entries =>
    if r.imports ≠ [] then .error (.duplicateSection "Import section")
    else if ¬ v p then .error (.parse "validator rejected import section")
    else .ok { r with imports := entries }
  | .exportSection entries =>
    if r.exports ≠ [] then .error (.duplicateSection "Export section")
    else if ¬ v p then .error (.parse "validator rejected export section")
    else .ok { r with exports := entries }
  | .endPayload =>
    if r.end_reached then .error (.duplicateSection "End section")
    else if ¬ v p then .error (.parse "validator rejected end")
    else .ok { r with end_reached := true }
  | .customSection => .ok r
  | .unknownSection => .error (.unsupportedSection "Unknown section")

/-- Process every payload in order, stopping at the first error (the `?`
inside the `for` loop of `parse_module_bytes`). -/
def processAll (v : Validator) : ModuleReader → List Payload → Except PError ModuleReader
  | r, [] => .ok r
  | r, p :: ps =>
    match processPayload v r p with
    | .error e => .error e
    | .ok r2 => processAll v r2 ps

/-- `TryFrom<ModuleReader> for TinyWasmModule` (lib.rs): re-check
`end_reached`, require one code entry per recorded type address, and
resolve each entry's function type (a missing type is the `expect`
panic). -/
def tryIntoModule (r : ModuleReader) : Except PError TinyWasmModule :=
  if ¬ r.end_reached then .error .endNotReached
  else if r.code_type_addrs.length ≠ r.code.length then
    .error (.otherErr "Code and code type address count mismatch")
  else
    match (r.code.zip r.code_type_addrs).mapM
        (fun (c, tyIdx) =>
          (r.func_types[tyIdx]?).map (fun ty =>
            ({ instructions := c.instructions, locals := c.locals, ty } : WasmFunction))) with
    | none => .error .panicked  -- `expect("No func type for func…")`
    | some funcs =>
      .ok { funcs := funcs
            func_types := r.func_types
            globals := r.globals
            table_types := r.table_types
            imports := r.imports
            start_func := r.start_func
            data := r.data
            exports := r.exports
            elements := r.elements
            memory_types := r.memory_types }

/-- `Parser::parse_module_bytes` (lib.rs): process all payloads, require
that `End` was reached, then convert the accumulated sections. -/
def parseModuleBytes (v : Validator) (ps : List Payload) :
    Except PError TinyWasmModule :=
  match processAll v ModuleReader.new ps with
  | .error e => .error e
  | .ok r =>
    if ¬ r.end_reached then .error .endNotReached
    else tryIntoModule r

/-- The number of `End` payloads in a stream. -/
def countEnds : List Payload → Nat
  | [] => 0
  | p :: ps => (if p.isEnd then 1 else 0) + countEnds ps

/-- The empty module, used as the module context of single-instruction
dispatch runs. -/
def emptyModule : TinyWasmModule :=
  ⟨[], [], [], [], [], none, [], [], [], []⟩

/-- Equality of `Except` results is decidable when both component types
have decidable equality. -/
instance {ε α : Type} [DecidableEq ε] [DecidableEq α] : DecidableEq (Except ε α) :=
  fun a b =>
    match a, b with
    | .error e1, .error e2 =>
      if h : e1 = e2 then .isTrue (by rw [h]) else .isFalse (by intro hc; cases hc; exact h rfl)
    | .ok v1, .ok v2 =>
      if h : v1 = v2 then .isTrue (by rw [h]) else .isFalse (by intro hc; cases hc; exact h rfl)
    | .error _, .ok _ => .isFalse (by intro hc; cases hc)
    | .ok _, .error _ => .isFalse (by intro hc; cases hc)

/-- C1: the spec says `br_if` pops an i32 and branches if and only if it
is non-zero, including negative values.  The executor instead tests
`val > 0` on the signed i32, so the condition `-1` falls through exactly
as the condition `0` does, while `1` branches: evaluating the `BrIf` arm
in a frame with an enclosing block shows `-1` and `0` produce the same
fall-through state and `1` takes the branch (jumping to the block's end
pointer and popping its frame). -/
theorem brIf_negative_falls_through :
    (execOne ⟨0, 5, [], [⟨0, 3, 0, .empty, .blockB⟩]⟩ (.brIf 0) []
        ⟨[i32ToRaw (-1)], []⟩ Store.empty emptyModule
      = .ok (.okRes, ⟨0, 5, [], [⟨0, 3, 0, .empty, .blockB⟩]⟩, ⟨[], []⟩))
    ∧ (execOne ⟨0, 5, [], [⟨0, 3, 0, .empty, .blockB⟩]⟩ (.brIf 0) []
        ⟨[i32ToRaw 0], []⟩ Store.empty emptyModule
      = .ok (.okRes, ⟨0, 5, [], [⟨0, 3, 0, .empty, .blockB⟩]⟩, ⟨[], []⟩))
    ∧ (execOne ⟨0, 5, [], [⟨0, 3, 0, .empty, .blockB⟩]⟩ (.brIf 0) []
        ⟨[i32ToRaw 1], []⟩ Store.empty emptyModule
      = .ok (.okRes, ⟨0, 3, [], []⟩, ⟨[], []⟩)) := by
  refine ⟨?_, ?_, ?_⟩ <;> decide

/-- C2: the spec says `br_table` pops an i32 index, selects
`labels[min(i, len-1)]` and behaves as `br`.  The executor's `BrTable`
arm collects the inline labels and then hits `todo!()`, so every
`br_table` dispatch panics instead of branching: here a one-entry label
vector with index `0` on the stack. -/
theorem brTable_always_panics :
    execOne ⟨0, 0, [], [⟨0, 3, 0, .empty, .blockB⟩]⟩ (.brTable 0 1)
        [.brTable 0 1, .brLabel 0, .endBlockFrame]
        ⟨[i32ToRaw 0], []⟩ Store.empty emptyModule
      = .error .panicked := by decide

/-- C3: the spec requires every instruction's dispatch to conserve the
value-stack height (height before − popped + pushed) on every execution
path.  The lowered `end` of a block with result type i32 must pop 1 and
push 1 (height unchanged), but the executor's `EndBlockFrame` arm hits
`todo!()` for any non-empty block signature, so the step panics with no
post-state at all: here a block frame of signature `(result i32)` whose
body left its result on the stack. -/
theorem endBlock_typed_result_panics :
    execOne ⟨0, 2, [], [⟨0, 2, 0, .type .i32, .blockB⟩]⟩ .endBlockFrame
        [.block (.type .i32) 2, .i32Const 1, .endBlockFrame]
        ⟨[i32ToRaw 1], []⟩ Store.empty emptyModule
      = .error .panicked := by decide

/-- C8: a `global.set` on an immutable global is always rejected, and any
rejected set (immutable global or mismatched value type) leaves the
stored value unchanged: `GlobalInstance::set` checks the value type and
the mutability flag before writing. -/
theorem globalSet_immutable_rejected (g : GlobalInstance) (v : WasmValue) :
    (g.ty.mutable = false → (GlobalInstance.set g v).1.isOk = false)
    ∧ ((GlobalInstance.set g v).1.isOk = false → (GlobalInstance.set g v).2 = g) := by
  constructor
  · intro hm
    unfold GlobalInstance.set
    by_cases h1 : v.valType ≠ g.ty.ty
    · rw [if_pos h1]
      rfl
    · rw [if_neg h1, if_pos (by simp [hm])]
      rfl
  · intro hrej
    unfold GlobalInstance.set at hrej ⊢
    by_cases h1 : v.valType ≠ g.ty.ty
    · rw [if_pos h1]
    · rw [if_neg h1] at hrej ⊢
      by_cases h2 : ¬ g.ty.mutable = true
      · rw [if_pos h2]
      · rw [if_neg h2] at hrej
        exact Bool.noConfusion hrej

/-- Witness for C8: an immutable i32 global rejects a type-correct set
and keeps its value. -/
theorem globalSet_immutable_rejected_witness :
    (GlobalInstance.set ⟨0, ⟨.i32, false⟩⟩ (.i32 5)).1.isOk = false
    ∧ (GlobalInstance.set ⟨0, ⟨.i32, false⟩⟩ (.i32 5)).2 = ⟨0, ⟨.i32, false⟩⟩ :=
  ⟨(globalSet_immutable_rejected ⟨0, ⟨.i32, false⟩⟩ (.i32 5)).1 rfl,
   (globalSet_immutable_rejected ⟨0, ⟨.i32, false⟩⟩ (.i32 5)).2 (by decide)⟩

/-- C6: the spec requires every serialized blob to begin with an explicit
magic prefix and version integer.  `ExecHandle::serialize` returns the
external rkyv archive of `SerializationState { stack, memory, globals }`
with nothing prepended, and `SerializationState` has no magic or version
field, so the blob is exactly the encoder's output for every encoder and
every handle. -/
theorem serialize_is_raw_archive (enc : SerializationState → Except String (List Nat))
    (h : ExecHandle) :
    (ExecHandle.serialize enc h).1 =
      match h.func_handle.instance_.memories with
      | [] => .error .panicked
      | mem :: _ =>
        match enc ⟨h.stack, mem.data, h.func_handle.instance_.globals.map (·.value)⟩ with
        | .error e => .error (.io e)
        | .ok bytes => .ok bytes := by
  cases hm : h.func_handle.instance_.memories with
  | nil => simp [ExecHandle.serialize, hm]
  | cons mem rest =>
    simp only [ExecHandle.serialize, hm]
    cases enc ⟨h.stack, mem.data, h.func_handle.instance_.globals.map (·.value)⟩ <;> rfl

/-- C9: a successful `serialize` leaves the handle it captured unchanged:
the stack and the first memory's buffer are moved out for encoding and
moved back, and the globals are only copied. -/
theorem serialize_preserves_handle (enc : SerializationState → Except String (List Nat))
    (h : ExecHandle) (bytes : List Nat)
    (hok : (ExecHandle.serialize enc h).1 = .ok bytes) :
    (ExecHandle.serialize enc h).2 = h := by
  cases hm : h.func_handle.instance_.memories with
  | nil => simp only [ExecHandle.serialize, hm] at hok; exact absurd hok (by simp)
  | cons mem rest =>
    simp only [ExecHandle.serialize, hm] at hok ⊢
    cases he : enc ⟨h.stack, mem.data, h.func_handle.instance_.globals.map (·.value)⟩ with
    | error e =>
      rw [he] at hok
      exact absurd hok (by simp)
    | ok bs =>
      show ({ func_handle :=
                { instance_ :=
                    { memories := mem :: rest,
                      globals := h.func_handle.instance_.globals },
                  ty := h.func_handle.ty },
              stack := h.stack } : ExecHandle) = h
      rw [← hm]

/-- Witness for C9: serializing a small concrete handle with a total
encoder returns it unchanged. -/
theorem serialize_preserves_handle_witness :
    (ExecHandle.serialize (fun _ => .ok [])
        ⟨⟨⟨[⟨⟨1, none⟩, [0, 7]⟩], [⟨3, ⟨.i32, true⟩⟩]⟩, ⟨[], []⟩⟩, ⟨[5], []⟩⟩).2
      = ⟨⟨⟨[⟨⟨1, none⟩, [0, 7]⟩], [⟨3, ⟨.i32, true⟩⟩]⟩, ⟨[], []⟩⟩, ⟨[5], []⟩⟩ :=
  serialize_preserves_handle (fun _ => .ok [])
    ⟨⟨⟨[⟨⟨1, none⟩, [0, 7]⟩], [⟨3, ⟨.i32, true⟩⟩]⟩, ⟨[], []⟩⟩, ⟨[5], []⟩⟩ [] rfl

/-- Processing any payload other than `End` either fails or leaves
`end_reached` unchanged. -/
theorem processPayload_preserves_end (v : Validator) (r r' : ModuleReader) (p : Payload)
    (hp : p.isEnd = false) (h : processPayload v r p = .ok r') :
    r'.end_reached = r.end_reached := by
  cases p <;> first
    | (simp only [processPayload] at h
       repeat' split at h
       all_goals first
         | exact Except.noConfusion h
         | (injection h with h2; subst h2; rfl))
    | simp [Payload.isEnd] at hp

/-- A payload stream without `End` payloads has zero `End` count. -/
theorem countEnds_eq_zero (ps : List Payload) (hno : ∀ p ∈ ps, p.isEnd = false) :
    countEnds ps = 0 := by
  induction ps with
  | nil => rfl
  | cons p ps ih =>
    simp [countEnds, hno p (List.mem_cons_self p ps),
          ih (fun q hq => hno q (List.mem_cons_of_mem p hq))]

/-- How `end_reached` and the number of processed `End` payloads evolve
over a successful run of the reader: starting with `end_reached` set, no
further `End` is accepted; starting unset, a successful run accepts
either no `End` (flag still unset) or exactly one (flag set). -/
theorem processAll_end_count (v : Validator) :
    ∀ (ps : List Payload) (r r' : ModuleReader), processAll v r ps = .ok r' →
      ((r.end_reached = true → r'.end_reached = true ∧ countEnds ps = 0)
       ∧ (r.end_reached = false →
           (r'.end_reached = false ∧ countEnds ps = 0)
           ∨ (r'.end_reached = true ∧ countEnds ps = 1)))
  | [], r, r', h => by
    simp only [processAll] at h
    injection h with h2
    subst h2
    exact ⟨fun ht => ⟨ht, rfl⟩, fun hf => .inl ⟨hf, rfl⟩⟩
  | p :: ps, r, r', h => by
    simp only [processAll] at h
    cases hp : processPayload v r p with
    | error e => rw [hp] at h; exact Except.noConfusion h
    | ok r2 =>
      rw [hp] at h
      have ih := processAll_end_count v ps r2 r' h
      by_cases he : p.isEnd = true
      · have hpe : p = .endPayload := by
          cases p <;> simp [Payload.isEnd] at he ⊢
        subst hpe
        simp only [processPayload] at hp
        by_cases hend : r.end_reached
        · rw [if_pos hend] at hp; exact Except.noConfusion hp
        · rw [if_neg hend] at hp
          split at hp
          · exact Except.noConfusion hp
          · injection hp with hp2
            have hr2 : r2.end_reached = true := by rw [← hp2]
            refine ⟨fun ht => absurd ht hend, fun _ => .inr ?_⟩
            have hrec := ih.1 hr2
            exact ⟨hrec.1, by simp [countEnds, Payload.isEnd, hrec.2]⟩
      · have hpe : p.isEnd = false := by simpa using he
        have hpres := processPayload_preserves_end v r r2 p hpe hp
        have hcount : countEnds (p :: ps) = countEnds ps := by
          simp [countEnds, hpe]
        constructor
        · intro ht
          have hrec := ih.1 (by rw [hpres]; exact ht)
          exact ⟨hrec.1, by rw [hcount]; exact hrec.2⟩
        · intro hf
          have hrec := ih.2 (by rw [hpres]; exact hf)
          cases hrec with
          | inl hc => exact .inl ⟨hc.1, by rw [hcount]; exact hc.2⟩
          | inr hc => exact .inr ⟨hc.1, by rw [hcount]; exact hc.2⟩

/-- C7: `parse_module_bytes` succeeds only when exactly one `End` payload
terminates the stream: a fully processed stream without an `End` payload
fails with `EndNotReached`; a successful parse processed exactly one
`End`; and once `end_reached` is set, a further `End` payload is
rejected with `DuplicateSection` before the validator even runs. -/
theorem parse_end_exactly_once (v : Validator) (ps : List Payload) :
    ((∀ p ∈ ps, p.isEnd = false) →
      ∀ r, processAll v ModuleReader.new ps = .ok r →
        parseModuleBytes v ps = .error .endNotReached)
    ∧ (∀ m, parseModuleBytes v ps = .ok m → countEnds ps = 1)
    ∧ (∀ r, r.end_reached = true →
        processPayload v r .endPayload = .error (.duplicateSection "End section")) := by
  refine ⟨?_, ?_, ?_⟩
  · intro hno r hproc
    have hm := (processAll_end_count v ps ModuleReader.new r hproc).2 rfl
    cases hm with
    | inr hc =>
      rw [countEnds_eq_zero ps hno] at hc
      exact absurd hc.2 (by simp)
    | inl hc =>
      have hps : parseModuleBytes v ps
          = if ¬ r.end_reached = true then .error .endNotReached
            else tryIntoModule r := by
        unfold parseModuleBytes; rw [hproc]
      rw [hps, if_pos (by simp [hc.1])]
  · intro m hok
    cases hproc : processAll v ModuleReader.new ps with
    | error e =>
      have hps : parseModuleBytes v ps = .error e := by
        unfold parseModuleBytes; rw [hproc]
      rw [hps] at hok
      exact Except.noConfusion hok
    | ok r =>
      have hps : parseModuleBytes v ps
          = if ¬ r.end_reached = true then .error .endNotReached
            else tryIntoModule r := by
        unfold parseModuleBytes; rw [hproc]
      rw [hps] at hok
      by_cases hend : r.end_reached
      · have hm := (processAll_end_count v ps ModuleReader.new r hproc).2 rfl
        cases hm with
        | inl hc => rw [hc.1] at hend; exact Bool.noConfusion hend
        | inr hc => exact hc.2
      · rw [if_pos hend] at hok
        exact Except.noConfusion hok
  · intro r hr
    simp only [processPayload]
    rw [if_pos hr]

/-- Witness for C7: a stream with only a version payload fails with
`EndNotReached`, and a reader that has already seen `End` rejects a
second `End` payload as a duplicate section. -/
theorem parse_end_exactly_once_witness :
    parseModuleBytes acceptAll [Payload.version 1 false] = .error .endNotReached
    ∧ processPayload acceptAll { ModuleReader.new with end_reached := true } .endPayload
        = .error (.duplicateSection "End section") :=
  ⟨(parse_end_exactly_once acceptAll [Payload.version 1 false]).1
      (by intro p hp; simp at hp; subst hp; rfl)
      { ModuleReader.new with version := some 1 } rfl,
   (parse_end_exactly_once acceptAll []).2.2
      { ModuleReader.new with end_reached := true } rfl⟩

/-- C5 (amended): the reader rejects a repeated section with
`DuplicateSection` for the Type, Import, Function, Table, Memory,
Global, Export, Data, Start and Code kinds — detected by non-emptiness
of the corresponding accumulator (a recorded start index for Start, at
least one code entry for Code) and before the wrapped validator runs —
but the Element arm has no duplicate check at all (it never produces
`DuplicateSection`, for any validator behaviour), and a DataCount
payload is flagged as a duplicate only when Data-section entries have
already been recorded. -/
theorem duplicate_section_behavior (v : Validator) (r : ModuleReader) :
    (∀ ts, r.func_types ≠ [] →
      processPayload v r (.typeSection ts) = .error (.duplicateSection "Type section"))
    ∧ (∀ xs, r.imports ≠ [] →
      processPayload v r (.importsSection xs) = .error (.duplicateSection "Import section"))
    ∧ (∀ xs, r.code_type_addrs ≠ [] →
      processPayload v r (.functionSection xs) = .error (.duplicateSection "Function section"))
    ∧ (∀ xs, r.table_types ≠ [] →
      processPayload v r (.tableSection xs) = .error (.duplicateSection "Table section"))
    ∧ (∀ xs, r.memory_types ≠ [] →
      processPayload v r (.memorySection xs) = .error (.duplicateSection "Memory section"))
    ∧ (∀ xs, r.globals ≠ [] →
      processPayload v r (.globalSection xs) = .error (.duplicateSection "Global section"))
    ∧ (∀ xs, r.exports ≠ [] →
      processPayload v r (.exportSection xs) = .error (.duplicateSection "Export section"))
    ∧ (∀ xs, r.data ≠ [] →
      processPayload v r (.dataSection xs) = .error (.duplicateSection "Data section"))
    ∧ (∀ n, r.start_func.isSome = true →
      processPayload v r (.startSection n) = .error (.duplicateSection "Start section"))
    ∧ (∀ n, r.code ≠ [] →
      processPayload v r (.codeSectionStart n) = .error (.duplicateSection "Code section"))
    ∧ (∀ xs s, processPayload v r (.elementSection xs) ≠ .error (.duplicateSection s))
    ∧ (∀ n s, r.data = [] →
      processPayload v r (.dataCountSection n) ≠ .error (.duplicateSection s)) := by
  refine ⟨?_, ?_, ?_, ?_, ?_, ?_, ?_, ?_, ?_, ?_, ?_, ?_⟩
  · intro ts ha; simp only [processPayload]; rw [if_pos ha]
  · intro xs ha; simp only [processPayload]; rw [if_pos ha]
  · intro xs ha; simp only [processPayload]; rw [if_pos ha]
  · intro xs ha; simp only [processPayload]; rw [if_pos ha]
  · intro xs ha; simp only [processPayload]; rw [if_pos ha]
  · intro xs ha; simp only [processPayload]; rw [if_pos ha]
  · intro xs ha; simp only [processPayload]; rw [if_pos ha]
  · intro xs ha; simp only [processPayload]; rw [if_pos ha]
  · intro n ha; simp only [processPayload]; rw [if_pos ha]
  · intro n ha; simp only [processPayload]; rw [if_pos ha]
  · intro xs s
    simp only [processPayload]
    split <;> simp
  · intro n s hdata
    simp only [processPayload]
    rw [if_neg (by simp [hdata])]
    split <;> simp

/-- Counterexample for C5: a stream with two Element sections parses
successfully when the wrapped validator accepts it — the reader itself
never flags the duplicate, the second section simply overwrites the
first — and likewise two DataCount sections (before any Data entries)
are not flagged; in neither case is a `DuplicateSection` error
produced. -/
theorem duplicate_element_sections_not_rejected :
    (parseModuleBytes acceptAll
        [.version 1 false, .elementSection [⟨.passive, [some 0]⟩],
         .elementSection [⟨.passive, [some 0]⟩], .endPayload]
      = .ok ⟨[], [], [], [], [], none, [], [], [⟨.passive, [some 0]⟩], []⟩)
    ∧ (parseModuleBytes acceptAll
        [.version 1 false, .dataCountSection 1, .dataCountSection 1, .endPayload]
      = .ok ⟨[], [], [], [], [], none, [], [], [], []⟩) := by
  constructor <;> rfl

/-- A reader state in which every section accumulator is non-empty. -/
def dupReader : ModuleReader :=
  ⟨some 1, some 0, [⟨[], []⟩], [0], [⟨"f", .func, 0⟩], [⟨[], []⟩],
   [⟨⟨.i32, false⟩, .i32Const 0⟩], [⟨.funcRef, 0, none⟩], [⟨1, none⟩],
   [⟨"m", "f", .func ⟨[], []⟩⟩], [⟨none, [0]⟩], [⟨.passive, []⟩], false⟩

/-- Witness for C5: on a reader with recorded sections, a repeated Type
and Start section are flagged as duplicates, while an Element payload is
never flagged and a DataCount payload on a fresh reader is not
flagged. -/
theorem duplicate_section_behavior_witness :
    processPayload acceptAll dupReader (.typeSection [])
      = .error (.duplicateSection "Type section")
    ∧ processPayload acceptAll dupReader (.startSection 1)
      = .error (.duplicateSection "Start section")
    ∧ processPayload acceptAll dupReader (.elementSection [])
      ≠ .error (.duplicateSection "Element section")
    ∧ processPayload acceptAll ModuleReader.new (.dataCountSection 1)
      ≠ .error (.duplicateSection "Data count section") :=
  ⟨(duplicate_section_behavior acceptAll dupReader).1 [] (by decide),
   ((duplicate_section_behavior acceptAll dupReader).2.2.2.2.2.2.2.2.1) 1 (by decide),
   ((duplicate_section_behavior acceptAll dupReader).2.2.2.2.2.2.2.2.2.2.1) [] "Element section",
   ((duplicate_section_behavior acceptAll ModuleReader.new).2.2.2.2.2.2.2.2.2.2.2) 1
     "Data count section" rfl⟩

/-- C4 (amended): `Instance::instantiate` alone does not invoke the start
function; the separate `Instance::instantiate_start` runs it via
`Instance::start` on the freshly instantiated instance, so an error of
the start invocation — in particular a trap raised by the start
function — is returned as the error of `instantiate_start`, and a
successful (or absent) start run returns the instance. -/
theorem instantiate_start_runs (m : TinyWasmModule) (imports : Imports) (c : Nat)
    (inst : Instance) (hinst : Instance.instantiate m imports = .ok inst) :
    (∀ e, inst.start c = .error e → Instance.instantiate_start m imports c = .error e)
    ∧ (∀ res, inst.start c = .ok res → Instance.instantiate_start m imports c = .ok inst) := by
  constructor <;> intro x hx <;>
    simp [Instance.instantiate_start, hinst, hx, bind, Except.bind]

/-- A module whose declared start function immediately traps with
`unreachable`. -/
def startTrapModule : TinyWasmModule :=
  ⟨[⟨[.unreachable, .endFunc], [], ⟨[], []⟩⟩], [⟨[], []⟩], [], [], [],
   some 0, [], [], [], []⟩

/-- The instance produced by instantiating `startTrapModule` with
no imports. -/
def startTrapInstance : Instance :=
  ⟨startTrapModule,
   ⟨[⟨.wasm ⟨[.unreachable, .endFunc], [], ⟨[], []⟩⟩⟩], [], [], [], [], []⟩,
   [0], [], [], [], [], []⟩

/-- Counterexample for C4: instantiating a module whose declared start
function traps succeeds — `instantiate` never invokes the start
function, so the trap is not returned as the error of `instantiate`
(running `start` on the resulting instance does trap). -/
theorem instantiate_does_not_run_start :
    Instance.instantiate startTrapModule Imports.new = .ok startTrapInstance
    ∧ startTrapInstance.start 2 = .error (.trap .unreachable) := by
  constructor <;> rfl

/-- Witness for C4: the trap of the start function of `startTrapModule`
is returned as the error of `instantiate_start`. -/
theorem instantiate_start_runs_witness :
    Instance.instantiate_start startTrapModule Imports.new 2
      = .error (.trap .unreachable) :=
  (instantiate_start_runs startTrapModule Imports.new 2 startTrapInstance rfl).1
    (.trap .unreachable) rfl

/-- Linking one import appends at most one function at the end of the
store's function arena, so sequential function addresses stay
sequential. -/
theorem linkOne_funcs_range (imports : Imports) (addrs : LinkedAddrs) (store : Store)
    (imp : Import) (b : LinkedAddrs × Store)
    (h : linkOne imports (addrs, store) imp = .ok b)
    (hinv : addrs.funcs = List.range store.funcs.length) :
    b.1.funcs = List.range b.2.funcs.length := by
  unfold linkOne at h
  cases hf : imports.entries.find?
      (fun e => e.1 = imp.moduleName ∧ e.2.1 = imp.fieldName) with
  | none => rw [hf] at h; exact Except.noConfusion h
  | some entry =>
    rw [hf] at h
    obtain ⟨mn, fn, item⟩ := entry
    obtain ⟨imn, ifn, ikind⟩ := imp
    cases ikind <;> cases item <;> dsimp only at h <;>
      first
        | exact Except.noConfusion h
        | (split at h
           all_goals first
             | exact Except.noConfusion h
             | (injection h with h2; subst h2
                simp [hinv, List.range_succ]))

/-- Folding the linker over a list of imports preserves sequential
function addresses. -/
theorem link_fold_funcs_range (imports : Imports) :
    ∀ (l : List Import) (a b : LinkedAddrs × Store),
      List.foldlM (linkOne imports) a l = .ok b →
      a.1.funcs = List.range a.2.funcs.length →
      b.1.funcs = List.range b.2.funcs.length
  | [], a, b, h, hinv => by
    rw [List.foldlM_nil] at h
    injection h with h2
    subst h2
    exact hinv
  | imp :: rest, a, b, h, hinv => by
    rw [List.foldlM_cons] at h
    cases ha : linkOne imports a imp with
    | error e =>
      rw [ha] at h
      simp only [bind, Except.bind] at h
      exact Except.noConfusion h
    | ok a2 =>
      rw [ha] at h
      simp only [bind, Except.bind] at h
      exact link_fold_funcs_range imports rest a2 b h
        (linkOne_funcs_range imports a.1 a.2 imp a2 ha hinv)

/-- Evaluating the declared globals never touches the function arena. -/
theorem init_globals_funcs :
    ∀ (gs : List Global) (s : Store) (ia fa : List Nat) (res : List Nat × Store),
      Store.init_globals s ia gs fa = .ok res → res.2.funcs = s.funcs
  | [], s, ia, fa, res, h => by
    simp only [Store.init_globals] at h
    injection h with h2
    subst h2
    rfl
  | g :: rest, s, ia, fa, res, h => by
    simp only [Store.init_globals] at h
    split at h
    · exact Except.noConfusion h
    · rename_i v heq
      have hrec := init_globals_funcs rest
        { s with globals := s.globals ++ [⟨v, g.ty⟩] }
        (ia ++ [s.globals.length]) fa res h
      rw [hrec]

/-- Initializing element segments never touches the function arena. -/
theorem init_elements_funcs :
    ∀ (es : List Element) (s : Store) (ta fa ga : List Nat)
      (res : List Nat × Store × Option Unit),
      Store.init_elements s ta fa ga es = .ok res → res.2.1.funcs = s.funcs
  | [], s, ta, fa, ga, res, h => by
    simp only [Store.init_elements] at h
    injection h with h2
    subst h2
    rfl
  | e :: rest, s, ta, fa, ga, res, h => by
    simp only [Store.init_elements] at h
    repeat' split at h
    all_goals first
      | exact Except.noConfusion h
      | (injection h with h2
         subst h2
         first
           | rfl
           | (rename_i heq
              have hrec := init_elements_funcs rest _ ta fa ga _ heq
              exact hrec))

/-- Initializing data segments never touches the function arena. -/
theorem init_datas_funcs :
    ∀ (ds : List Data) (s : Store) (ma ga fa : List Nat)
      (res : List Nat × Store × Option Unit),
      Store.init_datas s ma ga fa ds = .ok res → res.2.1.funcs = s.funcs
  | [], s, ma, ga, fa, res, h => by
    simp only [Store.init_datas] at h
    injection h with h2
    subst h2
    rfl
  | d :: rest, s, ma, ga, fa, res, h => by
    simp only [Store.init_datas] at h
    repeat' split at h
    all_goals first
      | exact Except.noConfusion h
      | (injection h with h2
         subst h2
         first
           | rfl
           | (rename_i heq
              have hrec := init_datas_funcs rest _ ma ga fa _ heq
              exact hrec))

/-- Shape of a successful instantiation: the instance keeps its module,
and — because the store is created fresh and every arena append is
sequential — the function address map is the identity `[0, 1, …]` over
the store's function arena. -/
theorem instantiate_shape (m : TinyWasmModule) (imports : Imports) (inst : Instance)
    (h : Instance.instantiate m imports = .ok inst) :
    inst.module = m ∧ inst.func_addrs = List.range inst.store.funcs.length := by
  unfold Instance.instantiate at h
  split at h
  · exact Except.noConfusion h
  · rename_i addrs store1 hlink
    simp only [Store.init_funcs, Store.init_tables, Store.init_memories] at h
    split at h
    · exact Except.noConfusion h
    · rename_i globalAddrs store5 hglob
      split at h
      · exact Except.noConfusion h
      · rename_i elemAddrs store6 elemTrapped helems
        split at h
        · exact Except.noConfusion h
        · split at h
          · exact Except.noConfusion h
          · rename_i dataAddrs store7 dataTrapped hdatas
            split at h
            · exact Except.noConfusion h
            · injection h with h2
              subst h2
              refine ⟨rfl, ?_⟩
              have hfa : addrs.funcs = List.range store1.funcs.length := by
                unfold Imports.link at hlink
                exact link_fold_funcs_range imports m.imports
                  (⟨[], [], [], []⟩, Store.empty) (addrs, store1) hlink rfl
              have h5 : store5.funcs
                  = store1.funcs ++ m.funcs.map (fun f => ⟨.wasm f⟩) := by
                have hp := init_globals_funcs m.globals _ _ _ _ hglob
                rw [hp]
              have h6 : store6.funcs = store5.funcs :=
                init_elements_funcs m.elements _ _ _ _ _ helems
              have h7 : store7.funcs = store6.funcs :=
                init_datas_funcs m.data _ _ _ _ _ hdatas
              show addrs.funcs
                  ++ (List.range m.funcs.length).map (· + store1.funcs.length)
                = List.range store7.funcs.length
              rw [h7, h6, h5, List.length_append, List.length_map, hfa,
                  List.range_add]
              congr 1
              simp [Nat.add_comm]

/-- If a module with in-bounds function exports and unique export names
exports a function named `_start`, then `export_addr` resolves
`"_start"` to a function address. -/
theorem export_addr_finds_start (inst : Instance) (e : ModuleExport)
    (hbound : ∀ e2 ∈ inst.module.exports, e2.kind = ExternalKind.func →
        e2.index < inst.func_addrs.length)
    (huniq : ∀ e1 ∈ inst.module.exports, ∀ e2 ∈ inst.module.exports,
        e1.name = e2.name → e1 = e2)
    (he : e ∈ inst.module.exports) (hname : e.name = "_start")
    (hkind : e.kind = ExternalKind.func) :
    ∃ a, inst.export_addr "_start" = some (.func a) := by
  unfold Instance.export_addr
  cases hfind : inst.module.exports.find? (fun x => x.name = "_start") with
  | none =>
    exfalso
    have hall := List.find?_eq_none.mp hfind e he
    simp [hname] at hall
  | some e0 =>
    have he0p := List.find?_some hfind
    have he0mem := List.mem_of_find?_eq_some hfind
    have he0name : e0.name = "_start" := by simpa using he0p
    have he0e : e0 = e := huniq e0 he0mem e he (he0name.trans hname.symm)
    subst he0e
    have hib := hbound e0 he0mem hkind
    refine ⟨inst.func_addrs[e0.index], ?_⟩
    simp only [hkind]
    rw [List.getElem?_eq_getElem hib]
    rfl

/-- C10: on an instance produced by `instantiate`, a module that declares
no start function but exports a function under the name `_start` gets
that exported function back from `start_func` (the double resolution
through `func_addrs` is harmless because instantiation always produces
the identity address map), and `start(max_cycles)` invokes it; and
`start` returns `Ok(None)` only when the module neither declares a start
function nor (assuming in-bounds function exports and unique export
names) exports a function named `_start`. -/
theorem start_uses_start_export :
    (∀ (m : TinyWasmModule) (imports : Imports) (inst : Instance) (c i : Nat),
      Instance.instantiate m imports = .ok inst →
      m.start_func = none →
      m.exports.find? (fun e => e.name = "_start") = some ⟨"_start", .func, i⟩ →
      i < inst.func_addrs.length →
      inst.func_addrs[i]? = some i
      ∧ ∀ fi, inst.store.funcs[i]? = some fi →
          inst.start_func = .ok (some ⟨i, Function.ty fi.func, none⟩)
          ∧ inst.start c = (inst.callFunc ⟨i, Function.ty fi.func, none⟩ [] c).map
              (fun _ => some ()))
    ∧ (∀ (inst : Instance) (c : Nat),
        (∀ e ∈ inst.module.exports, e.kind = ExternalKind.func →
            e.index < inst.func_addrs.length) →
        (∀ e1 ∈ inst.module.exports, ∀ e2 ∈ inst.module.exports,
            e1.name = e2.name → e1 = e2) →
        inst.start c = .ok none →
        inst.module.start_func = none
        ∧ ∀ e ∈ inst.module.exports, e.name = "_start" →
            e.kind ≠ ExternalKind.func) := by
  constructor
  · intro m imports inst c i hinst hstart hfind hi
    obtain ⟨hmod, hid⟩ := instantiate_shape m imports inst hinst
    have hfa : inst.func_addrs[i]? = some i := by
      rw [hid] at hi ⊢
      rw [List.getElem?_eq_getElem hi]
      rw [List.getElem_range]
    refine ⟨hfa, ?_⟩
    intro fi hfi
    have hsf : inst.start_func = .ok (some ⟨i, Function.ty fi.func, none⟩) := by
      simp only [Instance.start_func, Instance.export_addr, Store.get_func,
                 hmod, hstart, hfind, hfa, hfi, Option.map_some']
    refine ⟨hsf, ?_⟩
    cases hc : inst.callFunc ⟨i, Function.ty fi.func, none⟩ [] c <;>
      simp [Instance.start, hsf, hc, bind, Except.bind, Except.map]
  · intro inst c hbound huniq hok
    have hsf : inst.start_func = .ok none := by
      cases hs : inst.start_func with
      | error e =>
        exfalso
        simp [Instance.start, hs, bind, Except.bind] at hok
      | ok x =>
        cases x with
        | none => rfl
        | some f =>
          exfalso
          cases hc : inst.callFunc f [] c with
          | error e => simp [Instance.start, hs, hc, bind, Except.bind] at hok
          | ok r => simp [Instance.start, hs, hc, bind, Except.bind] at hok
    have hnostart : inst.module.start_func = none := by
      cases hms : inst.module.start_func with
      | none => rfl
      | some j =>
        exfalso
        simp only [Instance.start_func, hms] at hsf
        repeat' split at hsf
        all_goals first
          | exact Except.noConfusion hsf
          | (injection hsf with h2; exact Option.noConfusion h2)
    have hnoexp : ∀ a, inst.export_addr "_start" ≠ some (.func a) := by
      intro a hea
      simp only [Instance.start_func, hnostart, hea] at hsf
      repeat' split at hsf
      all_goals first
        | exact Except.noConfusion hsf
        | (injection hsf with h2; exact Option.noConfusion h2)
    refine ⟨hnostart, ?_⟩
    intro e he hname hkind
    obtain ⟨a, ha⟩ := export_addr_finds_start inst e hbound huniq he hname hkind
    exact hnoexp a ha

/-- A module with no declared start function that exports its only
function under the name `_start`. -/
def startExportModule : TinyWasmModule :=
  ⟨[⟨[.endFunc], [], ⟨[], []⟩⟩], [⟨[], []⟩], [], [], [], none, [],
   [⟨"_start", .func, 0⟩], [], []⟩

/-- The instance produced by instantiating `startExportModule` with
no imports. -/
def startExportInstance : Instance :=
  ⟨startExportModule, ⟨[⟨.wasm ⟨[.endFunc], [], ⟨[], []⟩⟩⟩], [], [], [], [], []⟩,
   [0], [], [], [], [], []⟩

/-- Witness for C10: on the concrete `_start`-exporting module,
`start_func` returns the exported function and `start` runs it. -/
theorem start_uses_start_export_witness :
    startExportInstance.start_func = .ok (some ⟨0, ⟨[], []⟩, none⟩)
    ∧ startExportInstance.start 3
        = (startExportInstance.callFunc ⟨0, ⟨[], []⟩, none⟩ [] 3).map
            (fun _ => some ()) := by
  obtain ⟨hfa, hrest⟩ := start_uses_start_export.1 startExportModule Imports.new
    startExportInstance 3 0 rfl rfl (by decide) (by decide)
  have h2 := hrest ⟨.wasm ⟨[.endFunc], [], ⟨[], []⟩⟩⟩ rfl
  exact ⟨h2.1, h2.2⟩
